import Mathlib

/-!
# Serial / NUS bridge (`src/main.c`): a shallow embedding

The development models the four pieces of `main.c` that move bytes:

* `ble_data_received`  link receive callback, producer of the inbound queue;
* `uart_cb`, `uart_work_handler`  serial driver callback and deferred retry;
* the forwarder loop at the end of `main`  (serial buffer to link packets);
* `ble_read_thread`  (link packets to serial buffers).

Conventions.  Bytes are natural numbers.  The target is a 32-bit ARM core, so
`int` and `size_t` are 32 bits wide and `uint16_t` fields wrap modulo `2^16`;
the helpers `size_t`, `to_int` and `u16` make every conversion explicit.
Pointers are addresses (`Nat`, `0` is `NULL`).  Calls into Zephyr (allocation,
queue, driver, link) are recorded as actions in a trace, and what they return
is supplied by the caller of the model.  Logging is left out except where a
branch consists of nothing else.
-/

namespace NusBridge

/-! ## Constants and data model -/

/-- The macro `UART_BUF_SIZE`, defined as 740. -/
def UART_BUF_SIZE : Nat := 740

/-- The macro `BT_NUS_UART_BUFFER_SIZE`, defined as 40. -/
def BT_NUS_UART_BUFFER_SIZE : Nat := 40

/-- The macro `UART_WAIT_FOR_BUF_DELAY`, `K_MSEC(50)`, in milliseconds. -/
def UART_WAIT_FOR_BUF_DELAY : Nat := 50

/-- The macro `UART_RX_TIMEOUT`, 50000 microseconds. -/
def UART_RX_TIMEOUT : Nat := 50000

/-- The errno value of `EBUSY`; `uart_tx` reports a busy line as `-EBUSY`. -/
def EBUSY : Int := 16

/-- The `struct uart_data_t` without the queue link word: `data[UART_BUF_SIZE]`
and the 16-bit `len`. -/
structure uart_data_t where
  data : List Nat
  len : Nat
deriving DecidableEq, Repr

/-- The `struct nus_data_t` without the queue link word:
`data[BT_NUS_UART_BUFFER_SIZE]` and the 16-bit `len`. -/
structure nus_data_t where
  data : List Nat
  len : Nat
deriving DecidableEq, Repr

/-! ## C arithmetic -/

/-- Conversion of a C integer to the 32-bit unsigned `size_t`. -/
def size_t (x : Int) : Nat := (x % 4294967296).toNat

/-- Conversion of a `size_t` value to the 32-bit signed `int`. -/
def to_int (x : Nat) : Int :=
  if x % 4294967296 < 2147483648 then ((x % 4294967296 : Nat) : Int)
  else ((x % 4294967296 : Nat) : Int) - 4294967296

/-- Store into a `uint16_t` object. -/
def u16 (x : Int) : Nat := (x % 65536).toNat

/-- Zephyr `MIN(a, b)`, which is `((a) < (b) ? (a) : (b))`, on operands that
the usual arithmetic conversions have already brought to `size_t`. -/
def MIN (a b : Nat) : Nat := if a < b then a else b

/-- The call `memcpy(&dst[off], src, n)` on an array held as a list: the `n` bytes at
`dst[off .. off+n)` are replaced by the first `n` bytes of `src`. -/
def memcpy (dst : List Nat) (off : Nat) (src : List Nat) (n : Nat) : List Nat :=
  dst.take off ++ src.take n ++ dst.drop (off + n)

/-! ## The forwarder loop of `main` (serial buffer to link packets) -/

/-- What the forwarder does to the outside world. -/
inductive FwdAct where
  /-- The call `bt_nus_client_send(&nus_client, nus_data.data, nus_data.len)`; the
  payload is `nus_data.data[0 .. nus_data.len)` at the time of the call. -/
  | bt_nus_client_send (payload : List Nat) (len : Nat)
  /-- The warning `LOG_WRN("Failed to send data over BLE connection (err %d)")` -/
  | log_send_failed (err : Int)
  /-- The warning `LOG_WRN("NUS send timeout")` -/
  | log_send_timeout
  /-- The call `k_free(buf)`. -/
  | k_free
deriving DecidableEq, Repr

/-- The `while (plen > 0)` loop of `main` for the serial buffer `buf`.
`env k` gives what the `k`-th pass observes: the return code of
`bt_nus_client_send` and the return code of `k_sem_take` (non-zero when the
acknowledgment wait timed out).  `none` means the fuel ran out. -/
def forward_loop (buf : uart_data_t) (env : Nat → Int × Int) :
    Nat → Nat → nus_data_t → Int → Int → Option (List FwdAct × nus_data_t)
  | 0, _, _, _, _ => none
  | fuel + 1, k, nus_data, loc, plen =>
    if 0 < plen then
      -- memcpy(&nus_data.data[nus_data.len], &buf->data[loc], plen);
      let d := memcpy nus_data.data nus_data.len (buf.data.drop loc.toNat) (size_t plen)
      -- nus_data.len += plen;  loc += plen;
      let l := u16 ((nus_data.len : Int) + plen)
      let loc1 := loc + plen
      -- err = bt_nus_client_send(&nus_client, nus_data.data, nus_data.len);
      let a1 := [FwdAct.bt_nus_client_send (d.take l) l]
      let a2 := if (env k).1 ≠ 0 then [FwdAct.log_send_failed (env k).1] else []
      -- err = k_sem_take(&nus_write_sem, NUS_WRITE_TIMEOUT);
      let a3 := if (env k).2 ≠ 0 then [FwdAct.log_send_timeout] else []
      -- nus_data.len = 0;  plen = MIN(sizeof(nus_data.data), buf->len - loc);
      let plen1 := to_int (MIN BT_NUS_UART_BUFFER_SIZE (size_t ((buf.len : Int) - loc1)))
      match forward_loop buf env fuel (k + 1) { data := d, len := 0 } loc1 plen1 with
      | none => none
      | some (acts, nus1) => some (a1 ++ a2 ++ a3 ++ acts, nus1)
    else
      some ([], nus_data)

/-- One pass of the `for (;;)` loop of `main`, from the buffer `buf` that
`k_fifo_get(&fifo_uart_rx_data, K_FOREVER)` returned to `k_free(buf)`.
`nus_data` is the function-scope packet object, carried from pass to pass. -/
def forward (buf : uart_data_t) (env : Nat → Int × Int) (fuel : Nat)
    (nus_data : nus_data_t) : Option (List FwdAct × nus_data_t) :=
  -- int plen = MIN(sizeof(nus_data.data) - nus_data.len, buf->len);  int loc = 0;
  let plen := to_int (MIN (size_t ((BT_NUS_UART_BUFFER_SIZE : Int) - nus_data.len)) buf.len)
  match forward_loop buf env fuel 0 nus_data 0 plen with
  | none => none
  | some (acts, nus1) => some (acts ++ [FwdAct.k_free], nus1)

/-- The payloads handed to `bt_nus_client_send`, in call order. -/
def sent_payloads : List FwdAct → List (List Nat)
  | [] => []
  | FwdAct.bt_nus_client_send p _ :: rest => p :: sent_payloads rest
  | _ :: rest => sent_payloads rest

/-- The initial value of the forwarder's packet object: `.len = 0`, the rest
zero-initialised. -/
def nus_data_init : nus_data_t := { data := List.replicate 40 0, len := 0 }

/-! ## The link receive callback -/

/-- What one call of `ble_data_received` does with its freshly allocated
packet object: the byte count it passes to `memcpy(&buf->data, data, len)`
and the object it passes to `k_fifo_put(&fifo_uart_tx_data, buf)`.  The
`data` field holds the 40 slots of the array; `copied` bytes are written
starting at `data[0]`, whatever the size of the array. -/
structure nus_rx where
  copied : Nat
  put : nus_data_t
deriving DecidableEq, Repr

/-- The callback `ble_data_received(nus, data, len)`.  The argument `buf` is
what `k_malloc(sizeof(*buf))` returned (`none` for `NULL`, otherwise the
uninitialised object); the result is `none` when the callback returns without
enqueuing anything. -/
def ble_data_received (buf : Option nus_data_t) (data : List Nat) (len : Nat) :
    Option nus_rx :=
  match buf with
  | none => none
  | some b =>
    -- memcpy(&buf->data, data, len);  buf->len = len;  k_fifo_put(..., buf);
    some { copied := len,
           put := { data := (memcpy b.data 0 data len).take BT_NUS_UART_BUFFER_SIZE,
                    len := len } }

/-! ## The serial driver callback `uart_cb` and `uart_work_handler` -/

/-- Byte offset of `data` inside `struct uart_data_t` (after the pointer-sized
`fifo_reserved` word). -/
def DATA_OFFSET : Nat := 4

/-- The pointer `CONTAINER_OF(p, struct uart_data_t, data[0])`. -/
def CONTAINER_OF (p : Nat) : Nat := p - DATA_OFFSET

/-- The pointer `buf->data` of the `struct uart_data_t` at address `buf`. -/
def data_of (buf : Nat) : Nat := buf + DATA_OFFSET

/-- Events of the asynchronous serial driver, with the fields `uart_cb` reads.
For the two transmit events `buf` is `evt->data.tx.buf` and `len` is
`evt->data.tx.len`; for `UART_RX_RDY` they are `evt->data.rx.buf` and
`evt->data.rx.len`; for `UART_RX_BUF_RELEASED`, `evt->data.rx_buf.buf`. -/
inductive uart_event where
  | UART_TX_DONE (buf : Nat) (len : Nat)
  | UART_TX_ABORTED (buf : Nat) (len : Nat)
  | UART_RX_RDY (buf : Nat) (len : Nat)
  | UART_RX_BUF_REQUEST
  | UART_RX_BUF_RELEASED (buf : Nat)
  | UART_RX_DISABLED
  | UART_RX_STOPPED
deriving DecidableEq, Repr

/-- Calls issued by `uart_cb` and `uart_work_handler`. -/
inductive uart_cmd where
  /-- The call `k_free(buf)`. -/
  | k_free (buf : Nat)
  /-- The call `k_fifo_put(&fifo_uart_rx_data, buf)`. -/
  | k_fifo_put (buf : Nat)
  /-- The call `uart_tx(uart, p, len, SYS_FOREVER_MS)`. -/
  | uart_tx (p : Nat) (len : Nat)
  /-- The call `uart_rx_enable(uart, p, size, timeout)`. -/
  | uart_rx_enable (p : Nat) (size : Nat) (timeout : Nat)
  /-- The call `uart_rx_buf_rsp(uart, p, size)`. -/
  | uart_rx_buf_rsp (p : Nat) (size : Nat)
  /-- The call `uart_rx_disable(uart)`. -/
  | uart_rx_disable
  /-- The call `k_work_reschedule(&uart_work, delay)`, delay in milliseconds. -/
  | k_work_reschedule (delay : Nat)
deriving DecidableEq, Repr

/-- The state `uart_cb` keeps or reaches through pointers: its three `static`
locals and, for every address, the `len` field of the `struct uart_data_t`
there (the only field of a buffer the callback reads or writes). -/
structure uart_cb_state where
  aborted_len : Nat
  aborted_buf : Nat
  disable_req : Bool
  len_of : Nat → Nat

/-- Store `v` into the `len` field of the buffer at address `buf`. -/
def set_len (len_of : Nat → Nat) (buf : Nat) (v : Nat) : Nat → Nat :=
  fun a => if a = buf then v else len_of a

/-- The callback `uart_cb(dev, evt, user_data)`.  The argument `alloc` is
what `k_malloc(sizeof(*buf))` returns if the branch taken calls it (`0` for
`NULL`). -/
def uart_cb (s : uart_cb_state) (evt : uart_event) (alloc : Nat) :
    uart_cb_state × List uart_cmd :=
  match evt with
  | uart_event.UART_TX_DONE ebuf elen =>
    if elen = 0 ∨ ebuf = 0 then (s, [])
    else if s.aborted_buf ≠ 0 then
      ({ s with aborted_buf := 0, aborted_len := 0 },
        [uart_cmd.k_free (CONTAINER_OF s.aborted_buf)])
    else (s, [uart_cmd.k_free (CONTAINER_OF ebuf)])
  | uart_event.UART_RX_RDY ebuf elen =>
    -- buf->len += evt->data.rx.len;
    let buf := CONTAINER_OF ebuf
    let s1 := { s with len_of := set_len s.len_of buf (u16 ((s.len_of buf : Int) + elen)) }
    if s.disable_req then (s1, [])
    else ({ s1 with disable_req := true }, [uart_cmd.uart_rx_disable])
  | uart_event.UART_RX_DISABLED =>
    let s1 := { s with disable_req := false }
    if alloc ≠ 0 then
      ({ s1 with len_of := set_len s1.len_of alloc 0 },
        [uart_cmd.uart_rx_enable (data_of alloc) UART_BUF_SIZE UART_RX_TIMEOUT])
    else (s1, [uart_cmd.k_work_reschedule UART_WAIT_FOR_BUF_DELAY])
  | uart_event.UART_RX_BUF_REQUEST =>
    if alloc ≠ 0 then
      ({ s with len_of := set_len s.len_of alloc 0 },
        [uart_cmd.uart_rx_buf_rsp (data_of alloc) UART_BUF_SIZE])
    else (s, [])
  | uart_event.UART_RX_BUF_RELEASED ebuf =>
    let buf := CONTAINER_OF ebuf
    if 0 < s.len_of buf then (s, [uart_cmd.k_fifo_put buf])
    else (s, [uart_cmd.k_free buf])
  | uart_event.UART_TX_ABORTED ebuf elen =>
    let ab := if s.aborted_buf = 0 then ebuf else s.aborted_buf
    -- aborted_len += evt->data.tx.len;
    let al := (s.aborted_len + elen) % 4294967296
    let buf := CONTAINER_OF ab
    -- uart_tx(uart, &buf->data[aborted_len], buf->len - aborted_len, SYS_FOREVER_MS);
    ({ s with aborted_buf := ab, aborted_len := al },
      [uart_cmd.uart_tx (data_of buf + al) (size_t ((s.len_of buf : Int) - al))])
  | uart_event.UART_RX_STOPPED => (s, [])

/-- The work item `uart_work_handler(item)`; `alloc` is what `k_malloc`
returns, `len_of` the `len` fields as in `uart_cb_state`. -/
def uart_work_handler (len_of : Nat → Nat) (alloc : Nat) :
    (Nat → Nat) × List uart_cmd :=
  if alloc ≠ 0 then
    (set_len len_of alloc 0,
      [uart_cmd.uart_rx_enable (data_of alloc) UART_BUF_SIZE UART_RX_TIMEOUT])
  else (len_of, [uart_cmd.k_work_reschedule UART_WAIT_FOR_BUF_DELAY])

/-- Run `uart_cb` over a sequence of events, each with the allocation result
it would see, and collect the calls issued for each event. -/
def uart_cb_run (s : uart_cb_state) : List (uart_event × Nat) → uart_cb_state × List (List uart_cmd)
  | [] => (s, [])
  | (evt, alloc) :: rest =>
    let r := uart_cb s evt alloc
    let rr := uart_cb_run r.1 rest
    (rr.1, r.2 :: rr.2)

/-- The `UART_TX_ABORTED` events the driver raises while the buffer at address
`b` is in flight: the `i`-th reports `k_i` bytes accepted of the transmission
it aborts, which started at `b->data` plus the bytes accepted before (`acc`). -/
def abort_events (b : Nat) : Nat → List Nat → List (uart_event × Nat)
  | _, [] => []
  | acc, k :: ks => (uart_event.UART_TX_ABORTED (data_of b + acc) k, 0) :: abort_events b (acc + k) ks

/-- The byte ranges of buffer `b` the transmitter has accepted, as half-open
intervals of offsets into `b->data`: a transmission submitted at offset `off`
with `len` bytes is either aborted after `k` bytes (range `[off, off+k)`, and
the next transmission is the one `uart_cb` resubmits) or, when no abort is
left, completes (range `[off, off+len)`). -/
def accepted_ranges (b : Nat) : Nat → Nat → List Nat → List (List uart_cmd) → List (Nat × Nat)
  | off, len, [], _ => [(off, off + len)]
  | off, _, k :: ks, [uart_cmd.uart_tx p l] :: cs =>
    (off, off + k) :: accepted_ranges b (p - data_of b) l ks cs
  | off, _, k :: _, _ => [(off, off + k)]

/-- Half-open ranges that follow one another without gap or overlap from `lo`
to `hi`. -/
def consecutive : Nat → Nat → List (Nat × Nat) → Prop
  | lo, hi, [] => lo = hi
  | lo, hi, r :: rest => r.1 = lo ∧ r.1 ≤ r.2 ∧ consecutive r.2 hi rest

/-! ## The aggregator `ble_read_thread` (link packets to serial buffers) -/

/-- Ways a run of the model can leave defined behaviour, or stop short. -/
inductive Fault where
  /-- The model's step budget ran out before the loop ended. -/
  | out_of_fuel
  /-- An index outside the array it is applied to. -/
  | out_of_bounds
  /-- A read through a pointer already given to `k_free`. -/
  | use_after_free
  /-- A dereference of `NULL`. -/
  | null_deref
deriving DecidableEq, Repr

/-- What the aggregator does to the outside world. -/
inductive AggAct where
  /-- The call `uart_tx(uart, uart_buf->data, uart_buf->len, SYS_FOREVER_MS)` on the
  buffer at address `buf`: `bytes` is `data[0 .. len)` at the time of the call
  and `err` the return code. -/
  | uart_tx (buf : Nat) (bytes : List Nat) (len : Nat) (err : Int)
  /-- The call `k_malloc(uart_buf_size)` and the pointer it returned. -/
  | k_malloc (r : Nat)
  /-- The call `k_free(buffer[j])`. -/
  | k_free (j : Nat)
deriving DecidableEq, Repr

/-- The state of `ble_read_thread` between statements: the serial buffers on
the heap, the outer `uart_buf` pointer, the locals of the packing loop, the
slots of `buffer` already given to `k_free`, what the environment will answer
(`mallocs`: pointers returned by the coming `k_malloc` calls, `NULL` once the
list is used up; `tx_codes`: return codes of the coming `uart_tx` calls, `0`
once the list is used up), and the calls made so far. -/
structure read_state where
  heap : Nat → uart_data_t
  uart_buf : Nat
  j : Nat
  nus_loc : Nat
  plen : Nat
  buffer_full : Bool
  err : Int
  freed : List Nat
  mallocs : List Nat
  tx_codes : List Int
  trace : List AggAct

/-- Store the object `v` at address `p`. -/
def heap_set (heap : Nat → uart_data_t) (p : Nat) (v : uart_data_t) : Nat → uart_data_t :=
  fun a => if a = p then v else heap a

/-- The store `buffer[i] = v` into the batch array. -/
def buffer_set (buffer : List (Option nus_data_t)) (i : Nat) (v : Option nus_data_t) :
    Except Fault (List (Option nus_data_t)) :=
  if i < buffer.length then Except.ok (buffer.set i v) else Except.error Fault.out_of_bounds

/-- The collection loop `while (!k_fifo_is_empty(..)) { buffer[i] = k_fifo_get(..);
if (buffer[i]) i++; }` over the packets it finds in the queue, in order.  The
index `i` is a `uint8_t`. -/
def collect_loop : List nus_data_t → Nat → List (Option nus_data_t) →
    Except Fault (Nat × List (Option nus_data_t))
  | [], i, buffer => Except.ok (i, buffer)
  | p :: rest, i, buffer =>
    match buffer_set buffer i (some p) with
    | Except.error e => Except.error e
    | Except.ok b1 => collect_loop rest ((i + 1) % 256) b1

/-- Collection of one batch into `struct nus_data_t *buffer[10]`: `first` is the
packet the blocking `k_fifo_get` returned, `queued` the packets the collection
loop then finds, and the slot after the last packet gets the terminating
`NULL`.  Slots after the terminator are never read. -/
def collect (first : nus_data_t) (queued : List nus_data_t) :
    Except Fault (List (Option nus_data_t)) :=
  match buffer_set (List.replicate 10 none) 0 (some first) with
  | Except.error e => Except.error e
  | Except.ok b0 =>
    match collect_loop queued 1 b0 with
    | Except.error e => Except.error e
    | Except.ok (i, b1) => buffer_set b1 i none

/-- Both retry loops `do { err = uart_tx(..); ..; k_msleep(5); } while (err == -EBUSY);`
of `ble_read_thread`: the same range is submitted again until the return code
is not `-EBUSY`.  Returns the calls made, the last return code and the codes
still unused. -/
def uart_tx_retry (buf : Nat) (bytes : List Nat) (len : Nat) :
    List Int → List AggAct × Int × List Int
  | [] => ([AggAct.uart_tx buf bytes len 0], 0, [])
  | e :: rest =>
    if e = -EBUSY then
      let r := uart_tx_retry buf bytes len rest
      (AggAct.uart_tx buf bytes len e :: r.1, r.2.1, r.2.2)
    else ([AggAct.uart_tx buf bytes len e], e, rest)

/-- One pass of the body of `while (!buffer_full)`.  The flag in the result
tells whether the pass left the loop through `break`. -/
def pack_step (buffer : List (Option nus_data_t)) (s : read_state) :
    Except Fault (read_state × Bool) :=
  match buffer.get? s.j with
  | none => Except.error Fault.out_of_bounds
  | some none => Except.error Fault.null_deref
  | some (some p) =>
    if s.j ∈ s.freed then Except.error Fault.use_after_free else
    let ub := s.heap s.uart_buf
    -- plen = MIN(sizeof(uart_buf->data) - uart_buf->len, buffer[j]->len - nus_loc);
    let plen := MIN (size_t ((UART_BUF_SIZE : Int) - ub.len)) (size_t ((p.len : Int) - s.nus_loc))
    -- memcpy(&uart_buf->data[uart_buf->len], &(buffer[j]->data[nus_loc]), plen);
    if p.data.length < s.nus_loc + plen ∨ ub.data.length < ub.len + plen then
      Except.error Fault.out_of_bounds
    else
    let d := memcpy ub.data ub.len (p.data.drop s.nus_loc) plen
    if UART_BUF_SIZE ≤ size_t ((ub.len : Int) + plen) then
      -- uart buffer is full
      Except.ok ({ s with heap := heap_set s.heap s.uart_buf { data := d, len := ub.len },
                          plen := plen, buffer_full := true }, false)
    else if p.len ≤ size_t ((s.nus_loc : Int) + plen) then
      -- end of current NUS packet payload
      let s1 := { s with heap := heap_set s.heap s.uart_buf
                            { data := d, len := u16 ((ub.len : Int) + plen) },
                         plen := plen, nus_loc := 0,
                         freed := s.j :: s.freed,
                         trace := s.trace ++ [AggAct.k_free s.j],
                         j := (s.j + 1) % 256 }
      match buffer.get? s1.j with
      | none => Except.error Fault.out_of_bounds
      | some none => Except.ok (s1, true)
      | some (some _) => Except.ok (s1, false)
    else
      Except.ok ({ s with heap := heap_set s.heap s.uart_buf
                            { data := d, len := u16 ((ub.len : Int) + plen) },
                          plen := plen,
                          nus_loc := u16 ((s.nus_loc : Int) + plen) }, false)

/-- The loop `while (!buffer_full) { .. }`. -/
def inner_while (buffer : List (Option nus_data_t)) : Nat → read_state → Except Fault read_state
  | 0, _ => Except.error Fault.out_of_fuel
  | fuel + 1, s =>
    if s.buffer_full then Except.ok s
    else
      match pack_step buffer s with
      | Except.error e => Except.error e
      | Except.ok (s1, true) => Except.ok s1
      | Except.ok (s1, false) => inner_while buffer fuel s1

/-- The block `if (buffer_full) { .. }`: submit the buffer, retrying while the
line is busy; run the allocation loop, whose pointer is a new local that hides
the outer `uart_buf` inside the loop body only (the loop condition and the two
statements after it use the outer one); then `uart_buf->len = 0;` and
`buffer_full = false;`. -/
def flush_full (s : read_state) : Except Fault read_state :=
  let ub := s.heap s.uart_buf
  let r := uart_tx_retry s.uart_buf (ub.data.take ub.len) ub.len s.tx_codes
  -- struct uart_data_t *uart_buf = k_malloc(uart_buf_size);
  let q := s.mallocs.headD 0
  let s1 := { s with err := r.2.1, tx_codes := r.2.2, mallocs := s.mallocs.tail,
                     trace := s.trace ++ r.1 ++ [AggAct.k_malloc q] }
  let s2 :=
    if q = 0 then
      -- k_free(buffer[j]); break;
      { s1 with freed := s.j :: s.freed, trace := s1.trace ++ [AggAct.k_free s.j] }
    else
      -- memset(&uart_buf->data, 0, sizeof(uart_buf->data));  uart_buf->len = 0;
      { s1 with heap := heap_set s1.heap q { data := List.replicate UART_BUF_SIZE 0, len := 0 } }
  -- } while (!uart_buf);   uart_buf->len = 0;   buffer_full = false;
  if s.uart_buf = 0 then Except.error Fault.null_deref
  else
    Except.ok { s2 with heap := heap_set s2.heap s.uart_buf
                          { data := (s2.heap s.uart_buf).data, len := 0 },
                        buffer_full := false }

/-- The packing loop `do { while (!buffer_full) { .. } if (buffer_full) { .. } }
while (buffer[j]);`. -/
def pack (buffer : List (Option nus_data_t)) : Nat → read_state → Except Fault read_state
  | 0, _ => Except.error Fault.out_of_fuel
  | fuel + 1, s =>
    match inner_while buffer (fuel + 1) s with
    | Except.error e => Except.error e
    | Except.ok s1 =>
      match (if s1.buffer_full then flush_full s1 else Except.ok s1) with
      | Except.error e => Except.error e
      | Except.ok s2 =>
        match buffer.get? s2.j with
        | none => Except.error Fault.out_of_bounds
        | some none => Except.ok s2
        | some (some _) => pack buffer fuel s2

/-- The final block `if (uart_buf->len) { do { err = uart_tx(..); .. } while (err == -EBUSY); }`. -/
def flush_remaining (s : read_state) : read_state :=
  let ub := s.heap s.uart_buf
  if ub.len ≠ 0 then
    let r := uart_tx_retry s.uart_buf (ub.data.take ub.len) ub.len s.tx_codes
    { s with err := r.2.1, tx_codes := r.2.2, trace := s.trace ++ r.1 }
  else s

/-- One pass of the `for (;;)` loop of `ble_read_thread`, started in state `s`
(of which the heap, `buffer_full`, the environment and the trace carry over
from the previous pass).  The flag in the result is `true` when the pass left
the `for (;;)` loop through `break`, so that the thread function returns, and
`false` when it reached the end of the loop body and goes back to
`k_fifo_get(&fifo_uart_tx_data, K_FOREVER)`. -/
def ble_read_iter (fuel : Nat) (s : read_state) (first : nus_data_t)
    (queued : List nus_data_t) : Except Fault (read_state × Bool) :=
  -- struct uart_data_t *uart_buf = k_malloc(uart_buf_size);
  let q := s.mallocs.headD 0
  let s0 := { s with j := 0, mallocs := s.mallocs.tail, trace := s.trace ++ [AggAct.k_malloc q] }
  if q = 0 then
    -- k_free(buffer[i]); break;
    Except.ok ({ s0 with trace := s0.trace ++ [AggAct.k_free 0] }, true)
  else
    let s1 := { s0 with uart_buf := q, freed := [],
                        heap := heap_set s0.heap q
                          { data := List.replicate UART_BUF_SIZE 0, len := 0 } }
    match collect first queued with
    | Except.error e => Except.error e
    | Except.ok buffer =>
      match pack buffer fuel { s1 with plen := 0, nus_loc := 0 } with
      | Except.error e => Except.error e
      | Except.ok s2 => Except.ok (flush_remaining s2, false)

/-- The thread function `ble_read_thread`, run over the batches that arrive:
each entry is the packet returned by the blocking `k_fifo_get` and the packets
found by the collection loop.  The flag in the result is `true` when the
function returned, `false` when it is back at the blocking `k_fifo_get` with
no batch left. -/
def ble_read_thread (fuel : Nat) : List (nus_data_t × List nus_data_t) → read_state →
    Except Fault (read_state × Bool)
  | [], s => Except.ok (s, false)
  | (first, queued) :: rest, s =>
    match ble_read_iter fuel s first queued with
    | Except.error e => Except.error e
    | Except.ok (s1, true) => Except.ok (s1, true)
    | Except.ok (s1, false) => ble_read_thread fuel rest s1

/-- The byte ranges of the `uart_tx` calls the serial driver accepted (return
code `0`), in call order. -/
def accepted_tx : List AggAct → List (List Nat)
  | [] => []
  | AggAct.uart_tx _ bytes _ err :: rest =>
    if err = 0 then bytes :: accepted_tx rest else accepted_tx rest
  | _ :: rest => accepted_tx rest

/-- The lengths given to `uart_tx`, in call order. -/
def tx_lengths : List AggAct → List Nat
  | [] => []
  | AggAct.uart_tx _ _ len _ :: rest => len :: tx_lengths rest
  | _ :: rest => tx_lengths rest

/-- The payload `p->data[0 .. p->len)` of a link packet. -/
def payload (p : nus_data_t) : List Nat := p.data.take p.len

/-- The state in which `ble_read_thread` starts: nothing allocated, locals as
initialised at the top of the function. -/
def read_state_init (mallocs : List Nat) (tx_codes : List Int) : read_state :=
  { heap := fun _ => { data := [], len := 0 }, uart_buf := 0, j := 0, nus_loc := 0,
    plen := 0, buffer_full := false, err := 0, freed := [], mallocs := mallocs,
    tx_codes := tx_codes, trace := [] }

/-! ## Concrete inputs used by the checks below -/

/-- A 100-byte serial buffer with distinguishable bytes. -/
def B100 : uart_data_t := { data := (List.range 740).map (fun i => i % 251), len := 100 }

/-- A callback state with the abort cursor clear and a 100-byte buffer at
address 1000 (every other address holds an empty buffer). -/
def cb_idle : uart_cb_state :=
  { aborted_len := 0, aborted_buf := 0, disable_req := false,
    len_of := fun a => if a = 1000 then 100 else 0 }

/-- The callback state after the 100-byte buffer at address 1000 was aborted
once with all of its 100 bytes already accepted. -/
def cb_aborted_all : uart_cb_state :=
  (uart_cb cb_idle (uart_event.UART_TX_ABORTED (data_of 1000) 100) 0).1

/-- The 40-slot link packet whose bytes count up from `start` (modulo 251),
with length field `n`. -/
def pkt (start n : Nat) : nus_data_t :=
  { data := (List.range 40).map (fun i => (start + i) % 251), len := n }

/-- A batch array holding 19 link packets of 40 bytes each (760 payload bytes)
followed by the terminating `NULL`. -/
def batch19 : List (Option nus_data_t) :=
  (List.range 19).map (fun i => some (pkt (40 * i) 40)) ++ [none]

/-- The state of `ble_read_thread` in front of the packing loop, with the
zeroed serial buffer at address 1000, the next `k_malloc` returning address
2000, and every `uart_tx` accepted. -/
def packing_start : read_state :=
  { read_state_init [2000] [] with
    uart_buf := 1000,
    heap := heap_set (fun _ => { data := [], len := 0 }) 1000
      { data := List.replicate 740 0, len := 0 } }

/-- What a run of the aggregator shows to the outside: the calls it made and
whether the thread function returned. -/
def observe (r : Except Fault (read_state × Bool)) : Except Fault (List AggAct × Bool) :=
  match r with
  | Except.error e => Except.error e
  | Except.ok (s, b) => Except.ok (s.trace, b)

/-- The buffers given to `uart_tx`, in call order. -/
def tx_buffers : List AggAct → List Nat
  | [] => []
  | AggAct.uart_tx buf _ _ _ :: rest => buf :: tx_buffers rest
  | _ :: rest => tx_buffers rest

/-- The batch array after collecting packets of 40, 40 and 20 bytes. -/
def batch3 : List (Option nus_data_t) :=
  [some (pkt 0 40), some (pkt 40 40), some (pkt 80 20), none, none, none, none, none, none, none]

/-- The start state of the thread when the first allocation returns address
1000 and the serial line is busy once before it accepts. -/
def read_start : read_state := read_state_init [1000] [-16]

/-- The indices of the stores `buffer[i] = ..` made from the collection loop
on: one per packet the loop fetches, then the store of the terminating `NULL`
after the loop.  The index `i` is a `uint8_t`. -/
def store_indices_loop : List nus_data_t → Nat → List Nat
  | [], i => [i]
  | _ :: rest, i => i :: store_indices_loop rest ((i + 1) % 256)

/-- The indices into `buffer` used while one batch is collected, in order:
`buffer[0]` for the packet of the blocking `k_fifo_get`, then, with `i`
incremented to 1, those of the collection loop and of the terminator. -/
def store_indices (queued : List nus_data_t) : List Nat :=
  0 :: store_indices_loop queued 1

/-- Nine packets of 40 bytes found in the queue by the collection loop, after
the first packet `pkt 0 40` of the batch. -/
def queue9 : List nus_data_t := (List.range 9).map (fun i => pkt (40 * (i + 1)) 40)

/-- A callback state with the abort cursor clear, a 100-byte buffer at address
1000 and a 50-byte buffer at address 2000. -/
def cb_two_buffers : uart_cb_state :=
  { aborted_len := 0, aborted_buf := 0, disable_req := false,
    len_of := fun a => if a = 1000 then 100 else if a = 2000 then 50 else 0 }

/-- The driver events of two transmissions in a row: the buffer at 1000 is
aborted when all of its 100 bytes were accepted, the empty resubmission
completes, and then the buffer at 2000 completes with its 50 bytes. -/
def abort_then_two_completions : List (uart_event × Nat) :=
  [(uart_event.UART_TX_ABORTED (data_of 1000) 100, 0),
   (uart_event.UART_TX_DONE (data_of 1000 + 100) 0, 0),
   (uart_event.UART_TX_DONE (data_of 2000) 50, 0)]

/-! ## Arithmetic and array lemmas -/

theorem size_t_ofNat (n : Nat) (h : n < 4294967296) : size_t (n : Int) = n := by
  unfold size_t; omega

theorem to_int_ofNat (n : Nat) (h : n < 2147483648) : to_int n = (n : Int) := by
  unfold to_int
  have : n % 4294967296 = n := Nat.mod_eq_of_lt (by omega)
  rw [this]; simp [h]

theorem u16_ofNat (n : Nat) (h : n < 65536) : u16 (n : Int) = n := by
  unfold u16; omega

theorem MIN_eq_min (a b : Nat) : MIN a b = min a b := by
  unfold MIN; split <;> omega

theorem memcpy_length (dst src : List Nat) (off n : Nat)
    (hs : n ≤ src.length) (hd : off + n ≤ dst.length) :
    (memcpy dst off src n).length = dst.length := by
  simp [memcpy]; omega

theorem memcpy_take (dst src : List Nat) (off n : Nat)
    (hs : n ≤ src.length) (hd : off ≤ dst.length) :
    (memcpy dst off src n).take (off + n) = dst.take off ++ src.take n := by
  have h1 : (dst.take off ++ src.take n).length = off + n := by simp; omega
  unfold memcpy
  rw [List.take_append_of_le_length (by omega)]
  rw [List.take_of_length_le (by omega)]

theorem slice_head (data : List Nat) (len loc p : Nat) (hp : p ≤ len - loc) :
    (data.take len).drop loc = (data.drop loc).take p ++ (data.take len).drop (loc + p) := by
  have h := (List.take_append_drop p ((data.take len).drop loc)).symm
  rw [List.drop_drop] at h
  have h2 : ((data.take len).drop loc).take p = (data.drop loc).take p := by
    rw [List.drop_take, List.take_take]
    congr 1; omega
  rw [h2] at h
  exact h

theorem forward_loop_ok (buf : uart_data_t) (env : Nat → Int × Int)
    (hlen : buf.len ≤ 740) (hdata : buf.data.length = 740) :
    ∀ (fuel k : Nat) (d : List Nat) (loc : Nat), d.length = 40 → loc ≤ buf.len →
      buf.len - loc < fuel →
      ∃ acts d1, forward_loop buf env fuel k { data := d, len := 0 } (loc : Int)
          ((min 40 (buf.len - loc) : Nat) : Int) = some (acts, { data := d1, len := 0 }) ∧
        d1.length = 40 ∧
        (sent_payloads acts).flatten = (buf.data.take buf.len).drop loc ∧
        (sent_payloads acts).length = (buf.len - loc + 39) / 40 ∧
        (∀ s ∈ sent_payloads acts, 0 < s.length ∧ s.length ≤ 40) ∧
        (∀ s ∈ (sent_payloads acts).dropLast, s.length = 40) := by
  intro fuel
  induction fuel with
  | zero => intro k d loc _ _ h; omega
  | succ fuel ih =>
    intro k d loc hd hloc hfuel
    by_cases hlt : loc < buf.len
    · -- one more slice
      obtain ⟨p, hp⟩ : ∃ p, p = min 40 (buf.len - loc) := ⟨_, rfl⟩
      have hp0 : 0 < p := by omega
      have hp40 : p ≤ 40 := by omega
      have hpl : p ≤ buf.len - loc := by omega
      have hsrc : p ≤ (buf.data.drop loc).length := by simp; omega
      have hd1 : (memcpy d 0 (buf.data.drop loc) p).length = 40 := by
        rw [memcpy_length _ _ _ _ hsrc (by omega)]; exact hd
      have hnext : to_int (MIN BT_NUS_UART_BUFFER_SIZE
          (size_t ((buf.len : Int) - ((loc : Int) + (p : Int))))) =
          ((min 40 (buf.len - (loc + p)) : Nat) : Int) := by
        have e : (buf.len : Int) - ((loc : Int) + (p : Int)) = ((buf.len - (loc + p) : Nat) : Int) := by
          omega
        have hm : min BT_NUS_UART_BUFFER_SIZE (buf.len - (loc + p)) < 2147483648 := by
          unfold BT_NUS_UART_BUFFER_SIZE; omega
        rw [e, size_t_ofNat _ (by omega), MIN_eq_min, to_int_ofNat _ hm]
        rfl
      obtain ⟨acts, d2, hrun, hd2, hj, hn, hb, hl⟩ :=
        ih (k + 1) (memcpy d 0 (buf.data.drop loc) p) (loc + p) hd1 (by omega) (by omega)
      have hpay : (memcpy d 0 (buf.data.drop loc) p).take p = (buf.data.drop loc).take p := by
        have := memcpy_take d (buf.data.drop loc) 0 p hsrc (by omega)
        simpa using this
      refine ⟨[FwdAct.bt_nus_client_send ((buf.data.drop loc).take p) p]
          ++ (if (env k).1 ≠ 0 then [FwdAct.log_send_failed (env k).1] else [])
          ++ (if (env k).2 ≠ 0 then [FwdAct.log_send_timeout] else []) ++ acts, d2, ?_, hd2, ?_⟩
      · rw [forward_loop]
        rw [← hp]
        have hpos : (0 : Int) < (p : Int) := by omega
        simp only [hpos, if_true]
        have e1 : size_t (p : Int) = p := size_t_ofNat _ (by omega)
        have e2 : u16 (((0 : Nat) : Int) + (p : Int)) = p := by
          have : ((0 : Nat) : Int) + (p : Int) = (p : Int) := by omega
          rw [this]; exact u16_ofNat _ (by omega)
        have e3 : (loc : Int).toNat = loc := by omega
        simp only [e1, e2, e3]
        rw [hnext]
        have e4 : (loc : Int) + (p : Int) = ((loc + p : Nat) : Int) := by omega
        rw [e4, hrun, hpay]
      · have hsp : sent_payloads ([FwdAct.bt_nus_client_send ((buf.data.drop loc).take p) p]
          ++ (if (env k).1 ≠ 0 then [FwdAct.log_send_failed (env k).1] else [])
          ++ (if (env k).2 ≠ 0 then [FwdAct.log_send_timeout] else []) ++ acts)
            = ((buf.data.drop loc).take p) :: sent_payloads acts := by
          by_cases h1 : (env k).1 = 0 <;> by_cases h2 : (env k).2 = 0 <;>
            simp [h1, h2, sent_payloads]
        rw [hsp]
        have hplen : ((buf.data.drop loc).take p).length = p := by
          rw [List.length_take]; omega
        refine ⟨?_, ?_, ?_, ?_⟩
        · rw [List.flatten_cons, hj]
          exact (slice_head buf.data buf.len loc p hpl).symm
        · rw [List.length_cons, hn]
          omega
        · intro s hs
          rcases List.mem_cons.1 hs with h | h
          · rw [h, hplen]; omega
          · exact hb s h
        · intro s hs
          cases hrest : sent_payloads acts with
          | nil => rw [hrest] at hs; simp at hs
          | cons x xs =>
            rw [hrest, List.dropLast_cons₂] at hs
            rcases List.mem_cons.1 hs with h | h
            · rw [h, hplen]
              have : 0 < (sent_payloads acts).length := by rw [hrest]; simp
              rw [hn] at this
              have : 0 < buf.len - (loc + p) := by
                by_contra hc
                have : buf.len - (loc + p) = 0 := by omega
                omega
              omega
            · apply hl; rw [hrest]; exact h
    · -- nothing left
      have hz : buf.len - loc = 0 := by omega
      refine ⟨[], d, ?_, hd, ?_⟩
      · rw [forward_loop]; simp [hz]
      · have : loc = buf.len := by omega
        subst this
        simp [sent_payloads]

theorem sent_payloads_append (a b : List FwdAct) :
    sent_payloads (a ++ b) = sent_payloads a ++ sent_payloads b := by
  induction a with
  | nil => rfl
  | cons x xs ih => cases x <;> simp [sent_payloads, ih]

/-! ## C1: the forwarder slices a serial buffer into link payloads -/

/-- C1: for every serial buffer `B` with `B.len ≤ 740` taken from the outbound
queue, whatever `bt_nus_client_send` and `k_sem_take` return on each pass, one
pass of the forwarder loop terminates, leaves the packet object empty again,
and the payloads it hands to `bt_nus_client_send` are consecutive slices of
`B.data[0 .. B.len)`: their concatenation is that range, there are
`ceil(B.len / 40)` of them, none is empty or longer than 40 bytes, and every
one but the last has exactly 40 bytes. -/
theorem C1_forwarder_slices (B : uart_data_t) (env : Nat → Int × Int) (fuel : Nat)
    (nus_data : nus_data_t)
    (hlen : B.len ≤ UART_BUF_SIZE) (hdata : B.data.length = UART_BUF_SIZE)
    (hnus : nus_data.len = 0) (hnusd : nus_data.data.length = BT_NUS_UART_BUFFER_SIZE)
    (hfuel : B.len < fuel) :
    ∃ acts nus1, forward B env fuel nus_data = some (acts, nus1) ∧
      nus1.len = 0 ∧ nus1.data.length = BT_NUS_UART_BUFFER_SIZE ∧
      (sent_payloads acts).flatten = B.data.take B.len ∧
      (sent_payloads acts).length
        = (B.len + (BT_NUS_UART_BUFFER_SIZE - 1)) / BT_NUS_UART_BUFFER_SIZE ∧
      (∀ s ∈ sent_payloads acts, 0 < s.length ∧ s.length ≤ BT_NUS_UART_BUFFER_SIZE) ∧
      (∀ s ∈ (sent_payloads acts).dropLast, s.length = BT_NUS_UART_BUFFER_SIZE) := by
  unfold UART_BUF_SIZE at hlen hdata
  unfold BT_NUS_UART_BUFFER_SIZE at hnusd
  obtain ⟨d, l⟩ := nus_data
  simp only at hnus hnusd
  subst hnus
  obtain ⟨acts, d1, hrun, hd1, hj, hn, hb, hl⟩ :=
    forward_loop_ok B env hlen hdata fuel 0 d 0 hnusd (Nat.zero_le _) (by omega)
  have hplen : to_int (MIN (size_t ((BT_NUS_UART_BUFFER_SIZE : Int) - ((0 : Nat) : Int))) B.len)
      = ((min 40 (B.len - 0) : Nat) : Int) := by
    have e : (BT_NUS_UART_BUFFER_SIZE : Int) - ((0 : Nat) : Int) = ((40 : Nat) : Int) := by
      simp [BT_NUS_UART_BUFFER_SIZE]
    have hm : min 40 B.len < 2147483648 := by omega
    rw [e, size_t_ofNat _ (by omega), MIN_eq_min, to_int_ofNat _ hm]
    simp
  refine ⟨acts ++ [FwdAct.k_free], { data := d1, len := 0 }, ?_, rfl, hd1, ?_⟩
  · unfold forward
    simp only [hplen]
    have h0 : ((0 : Nat) : Int) = 0 := rfl
    rw [h0] at hrun
    rw [hrun]
  · have hs : sent_payloads (acts ++ [FwdAct.k_free]) = sent_payloads acts := by
      rw [sent_payloads_append]; simp [sent_payloads]
    rw [hs]
    refine ⟨?_, ?_, ?_, hl⟩
    · simpa using hj
    · rw [hn]; simp [BT_NUS_UART_BUFFER_SIZE]
    · exact hb

set_option maxRecDepth 100000 in
/-- C1 at the 100-byte buffer, with every send failing and every wait timing
out: the hypotheses hold, and the slices have 40, 40 and 20 bytes in order. -/
theorem C1_forwarder_slices_witness :
    (∃ acts nus1, forward B100 (fun _ => (-128, -11)) 101 nus_data_init = some (acts, nus1) ∧
      nus1.len = 0 ∧ nus1.data.length = BT_NUS_UART_BUFFER_SIZE ∧
      (sent_payloads acts).flatten = B100.data.take B100.len ∧
      (sent_payloads acts).length
        = (B100.len + (BT_NUS_UART_BUFFER_SIZE - 1)) / BT_NUS_UART_BUFFER_SIZE ∧
      (∀ s ∈ sent_payloads acts, 0 < s.length ∧ s.length ≤ BT_NUS_UART_BUFFER_SIZE) ∧
      (∀ s ∈ (sent_payloads acts).dropLast, s.length = BT_NUS_UART_BUFFER_SIZE)) ∧
    (forward B100 (fun _ => (-128, -11)) 101 nus_data_init).map
      (fun r => (sent_payloads r.1).map List.length) = some [40, 40, 20] :=
  ⟨C1_forwarder_slices B100 (fun _ => (-128, -11)) 101 nus_data_init
      (by decide) (by decide) (by decide) (by decide) (by decide),
    by decide⟩

/-! ## C2: reassembly of a batch by the aggregator -/

theorem set_at_length (l1 l2 : List (Option nus_data_t)) (a x : Option nus_data_t) :
    (l1 ++ a :: l2).set l1.length x = l1 ++ x :: l2 := by
  induction l1 with
  | nil => rfl
  | cons y ys ih => simp [List.set, ih]

theorem collect_loop_spec : ∀ (queued pre : List nus_data_t) (k : Nat),
    pre.length + k = 10 →
    collect_loop queued pre.length (pre.map some ++ List.replicate k none) =
      if queued.length ≤ k then
        Except.ok (pre.length + queued.length,
          (pre ++ queued).map some ++ List.replicate (k - queued.length) none)
      else Except.error Fault.out_of_bounds := by
  intro queued
  induction queued with
  | nil => intro pre k _; simp [collect_loop]
  | cons p rest ih =>
    intro pre k hk
    cases k with
    | zero =>
      simp [collect_loop, buffer_set]
    | succ k =>
      have hset : buffer_set (pre.map some ++ List.replicate (k + 1) none) pre.length (some p)
          = Except.ok ((pre ++ [p]).map some ++ List.replicate k none) := by
        unfold buffer_set
        have hl : pre.length < (pre.map some ++ List.replicate (k + 1) none).length := by
          simp
        rw [if_pos hl]
        have := set_at_length (pre.map some) (List.replicate k none) none (some p)
        rw [List.length_map] at this
        rw [List.replicate_succ, this]
        simp
      have hmod : (pre.length + 1) % 256 = (pre ++ [p]).length := by
        simp; omega
      rw [collect_loop, hset]
      simp only [hmod]
      rw [ih (pre ++ [p]) k (by simp; omega)]
      simp only [List.length_cons, List.length_append, List.length_singleton,
        Nat.add_le_add_iff_right, List.append_assoc, List.singleton_append, Nat.add_sub_add_right]
      have e : pre.length + (([] : List nus_data_t).length + 1) + rest.length
          = pre.length + (rest.length + 1) := by
        simp only [List.length_nil]; omega
      rw [e]

theorem collect_spec (first : nus_data_t) (queued : List nus_data_t)
    (buffer : List (Option nus_data_t)) (h : collect first queued = Except.ok buffer) :
    queued.length ≤ 8 ∧
      buffer = (first :: queued).map some ++ none :: List.replicate (8 - queued.length) none := by
  unfold collect at h
  have h0 : buffer_set (List.replicate 10 none) 0 (some first)
      = Except.ok (([first] : List nus_data_t).map some ++ List.replicate 9 none) := by
    rfl
  rw [h0] at h
  simp only at h
  have hl := collect_loop_spec queued [first] 9 (by simp)
  simp only [List.length_singleton] at hl
  rw [hl] at h
  by_cases hq : queued.length ≤ 9
  · rw [if_pos hq] at h
    simp only at h
    unfold buffer_set at h
    by_cases h8 : queued.length ≤ 8
    · refine ⟨h8, ?_⟩
      have hk : 9 - queued.length = (8 - queued.length) + 1 := by omega
      rw [hk, List.replicate_succ] at h
      have hlen : 1 + queued.length
          < (([first] ++ queued).map some ++ none :: List.replicate (8 - queued.length) none).length := by
        simp; omega
      rw [if_pos hlen] at h
      have hs := set_at_length (([first] ++ queued).map some)
        (List.replicate (8 - queued.length) none) none none
      have hidx : (([first] ++ queued).map some).length = 1 + queued.length := by simp; omega
      rw [hidx] at hs
      rw [hs] at h
      injection h with h
      rw [← h]; rfl
    · exfalso
      have hk : 9 - queued.length = 0 := by omega
      rw [hk] at h
      have hlen : ¬ (1 + queued.length
          < (([first] ++ queued).map some ++ List.replicate 0 none).length) := by
        simp; omega
      rw [if_neg hlen] at h
      cases h
  · rw [if_neg hq] at h
    cases h

/-- The pass of the packing loop that consumes a whole packet which fits with
room to spare. -/
theorem pack_step_consume (buffer : List (Option nus_data_t)) (s : read_state)
    (p : nus_data_t) (d : List Nat) (L : Nat)
    (hget : buffer.get? s.j = some (some p)) (hfree : s.j ∉ s.freed)
    (hheap : s.heap s.uart_buf = { data := d, len := L })
    (hd : d.length = 740) (hp : p.len ≤ 40) (hpd : p.data.length = 40)
    (hloc : s.nus_loc = 0) (hroom : L + p.len < 740) (hj : s.j + 1 < 256) :
    pack_step buffer s =
      (match buffer.get? (s.j + 1) with
        | none => Except.error Fault.out_of_bounds
        | some none =>
          Except.ok ({ s with heap := heap_set s.heap s.uart_buf
                                { data := memcpy d L p.data p.len, len := L + p.len },
                              plen := p.len, nus_loc := 0, freed := s.j :: s.freed,
                              trace := s.trace ++ [AggAct.k_free s.j], j := s.j + 1 }, true)
        | some (some _) =>
          Except.ok ({ s with heap := heap_set s.heap s.uart_buf
                                { data := memcpy d L p.data p.len, len := L + p.len },
                              plen := p.len, nus_loc := 0, freed := s.j :: s.freed,
                              trace := s.trace ++ [AggAct.k_free s.j], j := s.j + 1 }, false)) := by
  have h1 : size_t ((UART_BUF_SIZE : Int) - (L : Int)) = 740 - L := by
    unfold size_t UART_BUF_SIZE; omega
  have h2 : size_t ((p.len : Int) - ((0 : Nat) : Int)) = p.len := by
    unfold size_t; omega
  have h3 : MIN (740 - L) p.len = p.len := by
    rw [MIN_eq_min]; omega
  have h4 : size_t ((L : Int) + (p.len : Int)) = L + p.len := by
    unfold size_t; omega
  have h5 : size_t (((0 : Nat) : Int) + (p.len : Int)) = p.len := by
    unfold size_t; omega
  have h6 : u16 ((L : Int) + (p.len : Int)) = L + p.len := by
    unfold u16; omega
  have h7 : ¬ (p.data.length < 0 + p.len ∨ d.length < L + p.len) := by
    rw [hpd, hd]; omega
  have h8 : ¬ (UART_BUF_SIZE ≤ L + p.len) := by
    unfold UART_BUF_SIZE; omega
  have h9 : (s.j + 1) % 256 = s.j + 1 := Nat.mod_eq_of_lt hj
  unfold pack_step
  rw [hget]
  simp only [hfree, if_false, hheap, hloc, h1, h2, h3, h4, h5, h6, h7, h8, h9, le_refl, if_true,
    List.drop_zero]

theorem buffer_get_packet (pkts : List nus_data_t) (rest : List (Option nus_data_t)) (j : Nat)
    (h : j < pkts.length) :
    ∃ p, p ∈ pkts ∧ (pkts.map some ++ none :: rest).get? j = some (some p) ∧
      pkts.drop j = p :: pkts.drop (j + 1) := by
  refine ⟨pkts[j], List.getElem_mem _, ?_, ?_⟩
  · rw [List.get?_eq_getElem?, List.getElem?_append_left (by simpa using h)]
    simp [h]
  · exact List.drop_eq_getElem_cons h

theorem buffer_get_null (pkts : List nus_data_t) (rest : List (Option nus_data_t)) :
    (pkts.map some ++ none :: rest).get? pkts.length = some none := by
  rw [List.get?_eq_getElem?, List.getElem?_append_right (by simp)]
  simp

theorem payload_length (p : nus_data_t) (h : p.len ≤ p.data.length) :
    (payload p).length = p.len := by
  simp [payload, h]

theorem accepted_tx_append (a b : List AggAct) :
    accepted_tx (a ++ b) = accepted_tx a ++ accepted_tx b := by
  induction a with
  | nil => rfl
  | cons x xs ih =>
    cases x with
    | uart_tx buf bytes len err =>
      by_cases h : err = 0 <;> simp [accepted_tx, h, ih]
    | k_malloc r => simp [accepted_tx, ih]
    | k_free j => simp [accepted_tx, ih]

theorem tx_lengths_append (a b : List AggAct) :
    tx_lengths (a ++ b) = tx_lengths a ++ tx_lengths b := by
  induction a with
  | nil => rfl
  | cons x xs ih => cases x <;> simp [tx_lengths, ih]

/-- The loop `while (!buffer_full)` on a batch whose remaining packets all fit
into the serial buffer with room to spare: it consumes them all and leaves
through `break` at the terminator. -/
theorem inner_while_batch (pkts : List nus_data_t) (rest : List (Option nus_data_t))
    (hwf : ∀ p ∈ pkts, p.len ≤ 40 ∧ p.data.length = 40) (hn : pkts.length < 256) :
    ∀ (k fuel : Nat) (s : read_state) (d : List Nat) (L : Nat),
      s.j + k = pkts.length → 0 < k → k ≤ fuel →
      s.buffer_full = false → s.nus_loc = 0 → (∀ x ∈ s.freed, x < s.j) →
      s.heap s.uart_buf = { data := d, len := L } → d.length = 740 → L + 40 * k < 740 →
      ∃ s1, inner_while (pkts.map some ++ none :: rest) fuel s = Except.ok s1 ∧
        s1.j = pkts.length ∧ s1.buffer_full = false ∧ s1.uart_buf = s.uart_buf ∧
        s1.tx_codes = s.tx_codes ∧ s1.mallocs = s.mallocs ∧
        (∃ d1, s1.heap s1.uart_buf
            = { data := d1, len := L + (((pkts.drop s.j).map payload).flatten).length } ∧
          d1.length = 740 ∧
          d1.take (L + (((pkts.drop s.j).map payload).flatten).length)
            = d.take L ++ ((pkts.drop s.j).map payload).flatten) ∧
        (∃ tr, s1.trace = s.trace ++ tr ∧ accepted_tx tr = [] ∧ tx_lengths tr = []) := by
  intro k
  induction k with
  | zero => intro fuel s d L _ h; omega
  | succ k ih =>
    intro fuel s d L hjk _ hfuel hbf hloc hfreed hheap hd hroom
    obtain ⟨fuel, rfl⟩ : ∃ f, fuel = f + 1 := ⟨fuel - 1, by omega⟩
    obtain ⟨p, hpm, hget, hdrop⟩ := buffer_get_packet pkts rest s.j (by omega)
    obtain ⟨hp, hpd⟩ := hwf p hpm
    have hfree : s.j ∉ s.freed := fun hx => Nat.lt_irrefl _ (hfreed _ hx)
    have hstep := pack_step_consume (pkts.map some ++ none :: rest) s p d L hget hfree hheap hd
      hp hpd hloc (by omega) (by omega)
    have hplen : (payload p).length = p.len := payload_length p (by omega)
    have hd1 : (memcpy d L p.data p.len).length = 740 := by
      rw [memcpy_length _ _ _ _ (by omega) (by omega)]; exact hd
    have htake : (memcpy d L p.data p.len).take (L + p.len) = d.take L ++ payload p :=
      memcpy_take d p.data L p.len (by omega) (by omega)
    rw [inner_while, hbf]
    simp only [Bool.false_eq_true, if_false]
    rw [hstep]
    rw [hdrop]
    simp only [List.map_cons, List.flatten_cons, List.length_append, hplen]
    by_cases hk : k = 0
    · -- the last packet: the pass leaves through `break`
      have hlast : s.j + 1 = pkts.length := by omega
      have hdn : pkts.drop (s.j + 1) = [] := List.drop_of_length_le (by omega)
      have hg : (pkts.map some ++ none :: rest).get? (s.j + 1) = some none := by
        rw [hlast]; exact buffer_get_null pkts rest
      rw [hg]
      simp only
      refine ⟨_, rfl, hlast, hbf, rfl, rfl, rfl, ?_, ?_⟩
      · refine ⟨memcpy d L p.data p.len, ?_, hd1, ?_⟩
        · simp [heap_set, hdn]
        · rw [hdn]
          simpa using htake
      · exact ⟨[AggAct.k_free s.j], rfl, rfl, rfl⟩
    · -- more packets follow
      obtain ⟨p2, _, hget2, _⟩ := buffer_get_packet pkts rest (s.j + 1) (by omega)
      rw [hget2]
      simp only
      obtain ⟨s1, hrun, h1, h2, h3, h4, h5, ⟨d1, h6, h7, h8⟩, ⟨tr, h9, h10, h11⟩⟩ :=
        ih fuel
          { s with heap := heap_set s.heap s.uart_buf
                     { data := memcpy d L p.data p.len, len := L + p.len },
                   plen := p.len, nus_loc := 0, freed := s.j :: s.freed,
                   trace := s.trace ++ [AggAct.k_free s.j], j := s.j + 1 }
          (memcpy d L p.data p.len) (L + p.len)
          (by simp only; omega) (by omega) (by omega) hbf rfl
          (by
            intro x hx
            simp only [List.mem_cons] at hx
            rcases hx with h | h
            · simp only; omega
            · have := hfreed x h; simp only; omega)
          (by simp [heap_set]) hd1 (by omega)
      simp only at hrun h3 h4 h5 h6 h8 h9
      refine ⟨s1, hrun, h1, h2, h3, h4, h5, ?_, ?_⟩
      · refine ⟨d1, ?_, h7, ?_⟩
        · rw [h6]; congr 1; omega
        · have e : L + (p.len + ((pkts.drop (s.j + 1)).map payload).flatten.length)
              = L + p.len + ((pkts.drop (s.j + 1)).map payload).flatten.length := by omega
          rw [e, h8, htake, List.append_assoc]
      · refine ⟨AggAct.k_free s.j :: tr, ?_, ?_, ?_⟩
        · rw [h9]; simp
        · simp [accepted_tx, h10]
        · simp [tx_lengths, h11]

theorem uart_tx_retry_accepted (buf : Nat) (bytes : List Nat) (len : Nat) :
    ∀ codes : List Int, (∀ e ∈ codes, e = 0 ∨ e = -EBUSY) →
      accepted_tx (uart_tx_retry buf bytes len codes).1 = [bytes] ∧
      (∀ l ∈ tx_lengths (uart_tx_retry buf bytes len codes).1, l = len) := by
  intro codes
  induction codes with
  | nil => intro _; simp [uart_tx_retry, accepted_tx, tx_lengths]
  | cons e rest ih =>
    intro h
    have hrest : ∀ e ∈ rest, e = 0 ∨ e = -EBUSY := fun x hx => h x (List.mem_cons_of_mem _ hx)
    obtain ⟨ih1, ih2⟩ := ih hrest
    rcases h e (List.mem_cons_self _ _) with h0 | hb
    · subst h0
      have : ¬ ((0 : Int) = -EBUSY) := by unfold EBUSY; omega
      simp [uart_tx_retry, this, accepted_tx, tx_lengths]
    · subst hb
      have hne : ¬ (-EBUSY = 0) := by unfold EBUSY; omega
      simp only [uart_tx_retry, if_true, accepted_tx, hne, if_false, tx_lengths, List.mem_cons]
      exact ⟨ih1, fun l hl => hl.elim id (ih2 l)⟩

theorem flush_remaining_empty (s : read_state) (h : (s.heap s.uart_buf).len = 0) :
    flush_remaining s = s := by
  unfold flush_remaining
  simp only [h, ne_eq, not_true_eq_false, if_false]

theorem flush_remaining_send (s : read_state) (h : (s.heap s.uart_buf).len ≠ 0) :
    (flush_remaining s).trace = s.trace ++
        (uart_tx_retry s.uart_buf ((s.heap s.uart_buf).data.take (s.heap s.uart_buf).len)
          (s.heap s.uart_buf).len s.tx_codes).1 ∧
      (flush_remaining s).buffer_full = s.buffer_full := by
  unfold flush_remaining
  simp only [h, ne_eq, not_false_eq_true, if_true, and_self]

/-- Reassembly of a batch that fits the batch array (the part of the
reassembly property the code satisfies): for every batch of link packets whose
collection stays inside `buffer` (its first allocation succeeded), each packet
well-formed with length at most 40, when every `uart_tx` return code is
success or busy, one pass of `ble_read_thread` runs to the end of the loop body
and the byte ranges `data[0 .. len)` of the transmissions the driver accepted,
concatenated in call order, equal the concatenation of the packets' payloads;
no length given to `uart_tx` exceeds 740, and at most one transmission is
accepted. -/
theorem reassembly_of_collected_batch (fuel : Nat) (s : read_state) (first : nus_data_t)
    (queued : List nus_data_t) (buffer : List (Option nus_data_t))
    (halloc : s.mallocs.headD 0 ≠ 0)
    (hcollect : collect first queued = Except.ok buffer)
    (hwf : ∀ p ∈ first :: queued, p.len ≤ BT_NUS_UART_BUFFER_SIZE ∧
      p.data.length = BT_NUS_UART_BUFFER_SIZE)
    (htx : ∀ e ∈ s.tx_codes, e = 0 ∨ e = -EBUSY)
    (hbf : s.buffer_full = false) (hfuel : 9 < fuel) :
    ∃ s1 tr, ble_read_iter fuel s first queued = Except.ok (s1, false) ∧
      s1.trace = s.trace ++ tr ∧
      (accepted_tx tr).flatten = ((first :: queued).map payload).flatten ∧
      (∀ l ∈ tx_lengths tr, l ≤ UART_BUF_SIZE) ∧
      (accepted_tx tr).length ≤ 1 ∧
      s1.buffer_full = false := by
  unfold BT_NUS_UART_BUFFER_SIZE at hwf
  obtain ⟨hq8, hbuf⟩ := collect_spec first queued buffer hcollect
  obtain ⟨fuel, rfl⟩ : ∃ f, fuel = f + 1 := ⟨fuel - 1, by omega⟩
  obtain ⟨s2, hrun, h1, h2, h3, h4, _, ⟨d1, h6, h7, h8⟩, ⟨tr, h9, h10, h11⟩⟩ :=
    inner_while_batch (first :: queued) (List.replicate (8 - queued.length) none) hwf
      (by simp; omega) (first :: queued).length (fuel + 1)
      { s with j := 0, mallocs := s.mallocs.tail,
               trace := s.trace ++ [AggAct.k_malloc (s.mallocs.headD 0)],
               uart_buf := s.mallocs.headD 0, freed := [],
               heap := heap_set s.heap (s.mallocs.headD 0)
                 { data := List.replicate UART_BUF_SIZE 0, len := 0 },
               plen := 0, nus_loc := 0 }
      (List.replicate UART_BUF_SIZE 0) 0
      (by simp) (by simp) (by simp; omega) hbf rfl (by simp) (by simp [heap_set])
      (by rw [List.length_replicate]; rfl) (by simp; omega)
  simp only [List.drop_zero, Nat.zero_add, List.take_zero, List.nil_append] at h3 h4 h6 h8 h9
  have hpack : pack buffer (fuel + 1)
      { s with j := 0, mallocs := s.mallocs.tail,
               trace := s.trace ++ [AggAct.k_malloc (s.mallocs.headD 0)],
               uart_buf := s.mallocs.headD 0, freed := [],
               heap := heap_set s.heap (s.mallocs.headD 0)
                 { data := List.replicate UART_BUF_SIZE 0, len := 0 },
               plen := 0, nus_loc := 0 } = Except.ok s2 := by
    rw [pack, hbuf, hrun]
    simp only [h2, Bool.false_eq_true, if_false]
    rw [h1, buffer_get_null]
  have hiter : ble_read_iter (fuel + 1) s first queued = Except.ok (flush_remaining s2, false) := by
    unfold ble_read_iter
    simp only [halloc, if_false]
    rw [hcollect]
    simp only
    rw [hpack]
  have hlen9 : (((first :: queued).map payload).flatten).length ≤ 360 := by
    have : ∀ (l : List nus_data_t), (∀ p ∈ l, p.len ≤ 40 ∧ p.data.length = 40) →
        ((l.map payload).flatten).length ≤ 40 * l.length := by
      intro l
      induction l with
      | nil => intro _; simp
      | cons x xs ih =>
        intro hx
        have h1 := payload_length x (by have := hx x (List.mem_cons_self _ _); omega)
        have h2 := (hx x (List.mem_cons_self _ _)).1
        have h3 := ih (fun p hp => hx p (List.mem_cons_of_mem _ hp))
        simp only [List.map_cons, List.flatten_cons, List.length_append, List.length_cons]
        omega
    have := this (first :: queued) hwf
    simp only [List.length_cons] at this
    omega
  by_cases hz : (((first :: queued).map payload).flatten).length = 0
  · -- nothing to send
    have hnil : ((first :: queued).map payload).flatten = [] := List.length_eq_zero.1 hz
    have hfp : flush_remaining s2 = s2 := flush_remaining_empty s2 (by rw [h6]; exact hz)
    refine ⟨flush_remaining s2, [AggAct.k_malloc (s.mallocs.headD 0)] ++ tr, hiter, ?_, ?_, ?_, ?_, ?_⟩
    · rw [hfp, h9, List.append_assoc]
    · rw [accepted_tx_append, h10, hnil]; simp [accepted_tx]
    · rw [tx_lengths_append, h11]; simp [tx_lengths]
    · rw [accepted_tx_append, h10]; simp [accepted_tx]
    · rw [hfp]; exact h2
  · -- one transmission, retried while busy
    have htx2 : ∀ e ∈ s2.tx_codes, e = 0 ∨ e = -EBUSY := by rw [h4]; exact htx
    obtain ⟨ha, hl⟩ := uart_tx_retry_accepted s2.uart_buf
      (d1.take (((first :: queued).map payload).flatten).length)
      (((first :: queued).map payload).flatten).length s2.tx_codes htx2
    have hfp := flush_remaining_send s2 (by rw [h6]; exact hz)
    rw [h6] at hfp
    simp only at hfp
    refine ⟨flush_remaining s2, [AggAct.k_malloc (s.mallocs.headD 0)] ++ tr ++
        (uart_tx_retry s2.uart_buf (d1.take (((first :: queued).map payload).flatten).length)
          (((first :: queued).map payload).flatten).length s2.tx_codes).1, hiter, ?_, ?_, ?_, ?_, ?_⟩
    · rw [hfp.1, h9]; simp only [List.append_assoc]
    · rw [accepted_tx_append, accepted_tx_append, h10, ha, h8]; simp [accepted_tx]
    · intro l hl2
      rw [tx_lengths_append, tx_lengths_append, h11] at hl2
      simp only [tx_lengths, List.nil_append, List.append_nil] at hl2
      rw [hl l hl2]
      unfold UART_BUF_SIZE; omega
    · rw [accepted_tx_append, accepted_tx_append, h10, ha]; simp [accepted_tx]
    · rw [hfp.2]; exact h2

set_option maxRecDepth 1000000 in
/-- The lemma above at the packets of 40, 40 and 20 bytes, with the serial line busy once:
the hypotheses hold, and exactly one transmission is accepted, of 100 bytes,
equal to the concatenation of the three payloads. -/
theorem reassembly_of_collected_batch_example :
    (read_start.mallocs.headD 0 ≠ 0 ∧
      collect (pkt 0 40) [pkt 40 40, pkt 80 20] = Except.ok batch3 ∧
      (∀ p ∈ [pkt 0 40, pkt 40 40, pkt 80 20], p.len ≤ BT_NUS_UART_BUFFER_SIZE ∧
        p.data.length = BT_NUS_UART_BUFFER_SIZE) ∧
      (∀ e ∈ read_start.tx_codes, e = 0 ∨ e = -EBUSY)) ∧
    (∃ s1 tr, ble_read_iter 10 read_start (pkt 0 40) [pkt 40 40, pkt 80 20] = Except.ok (s1, false) ∧
      s1.trace = read_start.trace ++ tr ∧
      (accepted_tx tr).flatten = (([pkt 0 40, pkt 40 40, pkt 80 20]).map payload).flatten ∧
      (∀ l ∈ tx_lengths tr, l ≤ UART_BUF_SIZE) ∧
      (accepted_tx tr).length ≤ 1 ∧
      s1.buffer_full = false) ∧
    (match ble_read_iter 10 read_start (pkt 0 40) [pkt 40 40, pkt 80 20] with
      | Except.ok (s, _) => some (accepted_tx s.trace, tx_lengths s.trace)
      | Except.error _ => none)
      = some ([(List.range 100).map (fun i => i % 251)], [100, 100]) :=
  ⟨⟨by decide, rfl, by decide, by decide⟩,
    reassembly_of_collected_batch 10 read_start (pkt 0 40) [pkt 40 40, pkt 80 20] batch3
      (by decide) rfl (by decide) (by decide) rfl (by decide),
    by decide⟩

theorem CONTAINER_OF_data_of (b : Nat) : CONTAINER_OF (data_of b) = b := by
  simp [CONTAINER_OF, data_of]

theorem data_of_ne_zero (b : Nat) : data_of b ≠ 0 := by
  simp [data_of, DATA_OFFSET]

/-- One abort while the buffer at `b` is in flight and `acc` bytes were
accepted before: the cursor moves to `acc + k` and the remainder is
resubmitted. -/
theorem uart_cb_abort_step (s : uart_cb_state) (b acc k n : Nat)
    (hcur : (s.aborted_buf = 0 ∧ s.aborted_len = 0 ∧ acc = 0) ∨
      (s.aborted_buf = data_of b ∧ s.aborted_len = acc))
    (hn : s.len_of b = n) (hsum : acc + k ≤ n) (hn32 : n < 4294967296) :
    (uart_cb s (uart_event.UART_TX_ABORTED (data_of b + acc) k) 0).2
        = [uart_cmd.uart_tx (data_of b + (acc + k)) (n - (acc + k))] ∧
      (uart_cb s (uart_event.UART_TX_ABORTED (data_of b + acc) k) 0).1.aborted_buf = data_of b ∧
      (uart_cb s (uart_event.UART_TX_ABORTED (data_of b + acc) k) 0).1.aborted_len = acc + k ∧
      (uart_cb s (uart_event.UART_TX_ABORTED (data_of b + acc) k) 0).1.len_of = s.len_of := by
  subst hn
  have hab : (if s.aborted_buf = 0 then data_of b + acc else s.aborted_buf) = data_of b := by
    rcases hcur with ⟨h1, _, h3⟩ | ⟨h1, _⟩
    · simp [h1, h3]
    · simp [h1, data_of_ne_zero]
  have hal : s.aborted_len = acc := by
    rcases hcur with ⟨_, h2, h3⟩ | ⟨_, h2⟩
    · omega
    · exact h2
  have hmod : (acc + k) % 4294967296 = acc + k := Nat.mod_eq_of_lt (by omega)
  have hsz : size_t ((s.len_of b : Int) - ((acc + k : Nat) : Int)) = s.len_of b - (acc + k) := by
    unfold size_t; omega
  simp only [uart_cb, hab, hal, hmod, CONTAINER_OF_data_of, hsz]
  exact ⟨trivial, trivial, trivial, trivial⟩

theorem uart_cb_abort_run (b n : Nat) (hn32 : n < 4294967296) :
    ∀ (ks : List Nat) (acc : Nat) (s : uart_cb_state),
      ((s.aborted_buf = 0 ∧ s.aborted_len = 0 ∧ acc = 0) ∨
        (s.aborted_buf = data_of b ∧ s.aborted_len = acc)) →
      s.len_of b = n → acc + ks.sum ≤ n →
      (∀ i, i < ks.length →
        (uart_cb_run s (abort_events b acc ks)).2.get? i
          = some [uart_cmd.uart_tx (data_of b + (acc + (ks.take (i + 1)).sum))
              (n - (acc + (ks.take (i + 1)).sum))]) ∧
      consecutive acc n
        (accepted_ranges b acc (n - acc) ks (uart_cb_run s (abort_events b acc ks)).2) := by
  intro ks
  induction ks with
  | nil =>
    intro acc s _ _ hsum
    simp at hsum
    refine ⟨fun i hi => by simp at hi, ?_⟩
    simp only [accepted_ranges, consecutive]
    refine ⟨trivial, ?_, ?_⟩ <;> omega
  | cons k ks ih =>
    intro acc s hcur hn hsum
    simp only [List.sum_cons] at hsum
    obtain ⟨h1, h2, h3, h4⟩ := uart_cb_abort_step s b acc k n hcur hn (by omega) hn32
    have hn1 : (uart_cb s (uart_event.UART_TX_ABORTED (data_of b + acc) k) 0).1.len_of b = n := by
      rw [h4]; exact hn
    obtain ⟨ihA, ihB⟩ := ih (acc + k)
      (uart_cb s (uart_event.UART_TX_ABORTED (data_of b + acc) k) 0).1
      (Or.inr ⟨h2, h3⟩) hn1 (by omega)
    constructor
    · intro i hi
      cases i with
      | zero =>
        simp only [abort_events, uart_cb_run, List.get?_cons_zero, h1]
        simp
      | succ i =>
        simp only [List.length_cons] at hi
        have := ihA i (by omega)
        simp only [abort_events, uart_cb_run, List.get?_cons_succ, this]
        simp [Nat.add_assoc]
    · have e : data_of b + (acc + k) - data_of b = acc + k := by omega
      simp only [abort_events, uart_cb_run]
      rw [h1]
      simp only [accepted_ranges, consecutive, e]
      exact ⟨trivial, by omega, ihB⟩

/-- C3: with the abort cursor clear and the buffer at `b` (length `n`) in
flight, for every sequence of `UART_TX_ABORTED` events reporting `k1, .., km`
bytes with `k1 + .. + km ≤ n`, the `i`-th abort makes `uart_cb` issue exactly
one call, `uart_tx` of `b->data[k1+..+ki .. n)` (that offset, and length
`n - (k1+..+ki)`); and the ranges the transmitter accepted across the aborts
and the final completion follow one another from `0` to `n` without gap or
overlap. -/
theorem C3_abort_resubmits_remainder (s : uart_cb_state) (b n : Nat) (ks : List Nat)
    (hbuf : s.aborted_buf = 0) (hcur : s.aborted_len = 0)
    (hn : s.len_of b = n) (hn16 : n < 65536) (hsum : ks.sum ≤ n) :
    (∀ i, i < ks.length →
      (uart_cb_run s (abort_events b 0 ks)).2.get? i
        = some [uart_cmd.uart_tx (data_of b + (ks.take (i + 1)).sum)
            (n - (ks.take (i + 1)).sum)]) ∧
    consecutive 0 n (accepted_ranges b 0 n ks (uart_cb_run s (abort_events b 0 ks)).2) := by
  have h := uart_cb_abort_run b n (by omega) ks 0 s (Or.inl ⟨hbuf, hcur, rfl⟩) hn (by omega)
  simpa using h

/-- C3 at a 100-byte buffer aborted after 30 and then 50 more bytes: the
resubmissions start at offsets 30 and 80 with 70 and 20 bytes, and the ranges
accepted are `[0,30)`, `[30,80)`, `[80,100)`. -/
theorem C3_abort_resubmits_remainder_witness :
    (cb_idle.aborted_buf = 0 ∧ cb_idle.aborted_len = 0 ∧ cb_idle.len_of 1000 = 100 ∧
      [30, 50].sum ≤ 100) ∧
    ((∀ i, i < [30, 50].length →
      (uart_cb_run cb_idle (abort_events 1000 0 [30, 50])).2.get? i
        = some [uart_cmd.uart_tx (data_of 1000 + (([30, 50] : List Nat).take (i + 1)).sum)
            (100 - (([30, 50] : List Nat).take (i + 1)).sum)]) ∧
      consecutive 0 100
        (accepted_ranges 1000 0 100 [30, 50] (uart_cb_run cb_idle (abort_events 1000 0 [30, 50])).2)) ∧
    (uart_cb_run cb_idle (abort_events 1000 0 [30, 50])).2
      = [[uart_cmd.uart_tx (data_of 1000 + 30) 70], [uart_cmd.uart_tx (data_of 1000 + 80) 20]] ∧
    accepted_ranges 1000 0 100 [30, 50] (uart_cb_run cb_idle (abort_events 1000 0 [30, 50])).2
      = [(0, 30), (30, 80), (80, 100)] :=
  ⟨⟨rfl, rfl, by decide, by decide⟩,
    C3_abort_resubmits_remainder cb_idle 1000 100 [30, 50] rfl rfl (by decide) (by decide)
      (by decide),
    by decide, by decide⟩

/-! ## C4: a released receive buffer is freed or queued, never both -/

/-- C4: on `UART_RX_BUF_RELEASED` the callback issues exactly one call for the
released buffer, `k_free` when its length is 0 and `k_fifo_put` on the outbound
queue when its length is positive, and changes no state; on every other event
it issues no `k_fifo_put` at all. -/
theorem C4_released_buffer_freed_or_queued (s : uart_cb_state) (alloc : Nat) :
    (∀ p, (uart_cb s (uart_event.UART_RX_BUF_RELEASED p) alloc).2
        = (if s.len_of (CONTAINER_OF p) = 0 then [uart_cmd.k_free (CONTAINER_OF p)]
           else [uart_cmd.k_fifo_put (CONTAINER_OF p)])) ∧
    (∀ evt, (∀ p, evt ≠ uart_event.UART_RX_BUF_RELEASED p) →
      ∀ q, uart_cmd.k_fifo_put q ∉ (uart_cb s evt alloc).2) := by
  constructor
  · intro p
    by_cases h : s.len_of (CONTAINER_OF p) = 0
    · simp [uart_cb, h]
    · have : 0 < s.len_of (CONTAINER_OF p) := Nat.pos_of_ne_zero h
      simp [uart_cb, h, this]
  · intro evt hne q
    cases evt with
    | UART_TX_DONE ebuf elen =>
      simp only [uart_cb]; split_ifs <;> simp
    | UART_TX_ABORTED ebuf elen => simp [uart_cb]
    | UART_RX_RDY ebuf elen =>
      simp only [uart_cb]; split_ifs <;> simp
    | UART_RX_BUF_REQUEST =>
      simp only [uart_cb]; split_ifs <;> simp
    | UART_RX_BUF_RELEASED p => exact absurd rfl (hne p)
    | UART_RX_DISABLED =>
      simp only [uart_cb]; split_ifs <;> simp
    | UART_RX_STOPPED => simp [uart_cb]

/-- C4 at the idle state: the 100-byte buffer at 1000 is queued, the empty
buffer at 2000 is freed, and a receive-ready event queues nothing. -/
theorem C4_released_buffer_freed_or_queued_witness :
    (uart_cb cb_idle (uart_event.UART_RX_BUF_RELEASED (data_of 1000)) 0).2
      = [uart_cmd.k_fifo_put 1000] ∧
    (uart_cb cb_idle (uart_event.UART_RX_BUF_RELEASED (data_of 2000)) 0).2
      = [uart_cmd.k_free 2000] ∧
    uart_cmd.k_fifo_put 1000 ∉ (uart_cb cb_idle (uart_event.UART_RX_RDY (data_of 1000) 5) 0).2 :=
  ⟨by
      have h := (C4_released_buffer_freed_or_queued cb_idle 0).1 (data_of 1000)
      rw [h]; decide,
    by
      have h := (C4_released_buffer_freed_or_queued cb_idle 0).1 (data_of 2000)
      rw [h]; decide,
    (C4_released_buffer_freed_or_queued cb_idle 0).2 _ (by intro p; simp) 1000⟩

/-! ## C6: buffer acquisition in the receive handlers -/

/-- C6, as stated, fails for the buffer-request branch: when `k_malloc`
returns `NULL` there, `uart_cb` issues no call at all, so no retry is
scheduled. -/
theorem C6_buf_request_schedules_no_retry :
    (uart_cb cb_idle uart_event.UART_RX_BUF_REQUEST 0).2 = [] ∧
    uart_cmd.k_work_reschedule UART_WAIT_FOR_BUF_DELAY
      ∉ (uart_cb cb_idle uart_event.UART_RX_BUF_REQUEST 0).2 := by
  decide

/-- C6, amended: when acquisition fails, the `UART_RX_DISABLED` branch and
`uart_work_handler` issue exactly one call, `k_work_reschedule` with the 50 ms
delay, while the `UART_RX_BUF_REQUEST` branch issues no call (it only logs); in
all three nothing is handed to the driver.  When acquisition succeeds, each of
the three hands the driver the new buffer's `data` with size 740 and has set
its length to 0. -/
theorem C6_acquisition_outcomes (s : uart_cb_state) (alloc : Nat) :
    ((uart_cb s uart_event.UART_RX_DISABLED 0).2 = [uart_cmd.k_work_reschedule 50] ∧
      (uart_work_handler s.len_of 0).2 = [uart_cmd.k_work_reschedule 50] ∧
      (uart_cb s uart_event.UART_RX_BUF_REQUEST 0).2 = []) ∧
    (alloc ≠ 0 →
      (uart_cb s uart_event.UART_RX_DISABLED alloc).2
          = [uart_cmd.uart_rx_enable (data_of alloc) 740 UART_RX_TIMEOUT] ∧
        (uart_cb s uart_event.UART_RX_DISABLED alloc).1.len_of alloc = 0 ∧
      (uart_work_handler s.len_of alloc).2
          = [uart_cmd.uart_rx_enable (data_of alloc) 740 UART_RX_TIMEOUT] ∧
        (uart_work_handler s.len_of alloc).1 alloc = 0 ∧
      (uart_cb s uart_event.UART_RX_BUF_REQUEST alloc).2
          = [uart_cmd.uart_rx_buf_rsp (data_of alloc) 740] ∧
        (uart_cb s uart_event.UART_RX_BUF_REQUEST alloc).1.len_of alloc = 0) := by
  refine ⟨⟨?_, ?_, ?_⟩, ?_⟩
  · simp [uart_cb, UART_WAIT_FOR_BUF_DELAY]
  · simp [uart_work_handler, UART_WAIT_FOR_BUF_DELAY]
  · simp [uart_cb]
  · intro h
    simp [uart_cb, uart_work_handler, h, set_len, UART_BUF_SIZE]

/-- C6 amended, at a successful allocation at address 2000. -/
theorem C6_acquisition_outcomes_witness :
    (2000 ≠ 0) ∧
    ((uart_cb cb_idle uart_event.UART_RX_DISABLED 2000).2
          = [uart_cmd.uart_rx_enable (data_of 2000) 740 UART_RX_TIMEOUT] ∧
        (uart_cb cb_idle uart_event.UART_RX_DISABLED 2000).1.len_of 2000 = 0 ∧
      (uart_work_handler cb_idle.len_of 2000).2
          = [uart_cmd.uart_rx_enable (data_of 2000) 740 UART_RX_TIMEOUT] ∧
        (uart_work_handler cb_idle.len_of 2000).1 2000 = 0 ∧
      (uart_cb cb_idle uart_event.UART_RX_BUF_REQUEST 2000).2
          = [uart_cmd.uart_rx_buf_rsp (data_of 2000) 740] ∧
        (uart_cb cb_idle uart_event.UART_RX_BUF_REQUEST 2000).1.len_of 2000 = 0) :=
  ⟨by decide, (C6_acquisition_outcomes cb_idle 2000).2 (by decide)⟩

/-! ## C5: the link receive callback does not bound the length -/

/-- C5 fails at a 41-byte payload: `ble_data_received` asks `memcpy` for 41
bytes into the 40-byte array and enqueues a packet whose length field is 41. -/
theorem C5_receive_overruns_packet :
    ∃ r, ble_data_received (some { data := List.replicate 40 0, len := 0 })
        (List.replicate 41 1) 41 = some r ∧
      BT_NUS_UART_BUFFER_SIZE < r.copied ∧ BT_NUS_UART_BUFFER_SIZE < r.put.len :=
  ⟨_, rfl, by decide, by decide⟩

/-! ## C7: allocation failure at the top of the aggregator loop -/

/-- C7 fails when the first `k_malloc` of a pass returns `NULL`: the pass frees
the packet and leaves the `for (;;)` loop, the thread function returns, and the
second packet is never processed although the next allocation would succeed. -/
theorem C7_out_of_memory_ends_thread :
    observe (ble_read_iter 20 (read_state_init [0, 1000] []) (pkt 0 40) [])
      = Except.ok ([AggAct.k_malloc 0, AggAct.k_free 0], true) ∧
    observe (ble_read_thread 20 [(pkt 0 40, []), (pkt 40 40, [])] (read_state_init [0, 1000] []))
      = Except.ok ([AggAct.k_malloc 0, AggAct.k_free 0], true) :=
  ⟨rfl, rfl⟩

/-! ## C8 and C9: the full-buffer branch of the packing loop -/

set_option maxRecDepth 1000000 in
/-- C8 fails on a batch of 19 packets of 40 bytes: the copy step for the 19th
packet (20 bytes at offset 720) brings the buffer to 740 bytes and sets
`buffer_full`, but the length field stays 720 and the read offset stays 0; the
chunk then given to `uart_tx` has 720 bytes, not 740, and ends with the 18th
packet, so it does not contain the bytes copied in that step. -/
theorem C8_full_buffer_submitted_short :
    (match inner_while batch19 40 packing_start with
      | Except.ok s => some (s.buffer_full, (s.heap s.uart_buf).len, s.plen, s.j, s.nus_loc)
      | Except.error _ => none) = some (true, 720, 20, 18, 0) ∧
    (match inner_while batch19 40 packing_start with
      | Except.ok s => some ((s.heap s.uart_buf).data.drop 720)
      | Except.error _ => none) = some ((pkt 720 40).data.take 20) ∧
    (match pack batch19 40 packing_start with
      | Except.ok s => some (tx_lengths s.trace, accepted_tx s.trace)
      | Except.error _ => none)
      = some ([720], [((List.range 18).map (fun i => payload (pkt (40 * i) 40))).flatten]) :=
  ⟨by decide, by decide, by decide⟩

set_option maxRecDepth 1000000 in
/-- C9 fails on the same batch: after the buffer at address 1000 was given to
`uart_tx`, the newly allocated buffer at 2000 is never used; the outer pointer
still is 1000, the length field of the buffer at 1000 is overwritten (0, then
40), the 19th packet is copied into it, and it is the buffer given to
`uart_tx` a second time. -/
theorem C9_submitted_buffer_written_again :
    (match pack batch19 40 packing_start with
      | Except.ok s =>
        some (tx_buffers s.trace, tx_lengths s.trace, s.trace.contains (AggAct.k_malloc 2000),
          s.uart_buf, (s.heap 1000).len)
      | Except.error _ => none) = some ([1000], [720], true, 1000, 40) ∧
    (match pack batch19 40 packing_start with
      | Except.ok s => some ((s.heap 1000).data.take 40, s.heap 2000)
      | Except.error _ => none)
      = some (payload (pkt 720 40), { data := List.replicate 740 0, len := 0 }) ∧
    (match pack batch19 40 packing_start with
      | Except.ok s =>
        some (tx_buffers (flush_remaining s).trace, tx_lengths (flush_remaining s).trace)
      | Except.error _ => none) = some ([1000, 1000], [720, 40]) :=
  ⟨by decide, by decide, by decide⟩

/-! ## C10: completion of a transmission -/

/-- A completion event that reports zero bytes is ignored: after
the 100-byte buffer at 1000 was aborted with all 100 bytes accepted, the
resubmission is empty, and on its `UART_TX_DONE` (length 0) `uart_cb` frees
nothing and leaves the abort cursor set. -/
theorem zero_length_done_frees_nothing :
    (uart_cb cb_idle (uart_event.UART_TX_ABORTED (data_of 1000) 100) 0).2
      = [uart_cmd.uart_tx (data_of 1000 + 100) 0] ∧
    (uart_cb cb_aborted_all (uart_event.UART_TX_DONE (data_of 1000 + 100) 0) 0).2 = [] ∧
    (uart_cb cb_aborted_all (uart_event.UART_TX_DONE (data_of 1000 + 100) 0) 0).1.aborted_buf
      = data_of 1000 ∧
    (uart_cb cb_aborted_all (uart_event.UART_TX_DONE (data_of 1000 + 100) 0) 0).1.aborted_len
      = 100 := by
  decide

/-- The completion paths that do free the in-flight buffer: for every
`UART_TX_DONE` event with a non-zero length and a non-null pointer, received
while the cursor is clear or records the in-flight buffer at `b` (either no abort preceded, the
cursor is clear and the event points at `b->data`; or aborts preceded and the
cursor records `b->data`, wherever the event points), `uart_cb` issues exactly
one call, `k_free(b)`, and leaves the cursor clear, so that the first abort of
the next buffer `b2` resubmits from `b2`'s own base at offset `k`, its own
accepted count.  No `UART_TX_ABORTED` event frees any buffer. -/
theorem tx_done_frees_inflight (s : uart_cb_state) (b ebuf elen alloc : Nat)
    (hlen : elen ≠ 0) (hbuf : ebuf ≠ 0)
    (hfl : (s.aborted_buf = 0 ∧ s.aborted_len = 0 ∧ ebuf = data_of b) ∨
      s.aborted_buf = data_of b) :
    (uart_cb s (uart_event.UART_TX_DONE ebuf elen) alloc).2 = [uart_cmd.k_free b] ∧
    (uart_cb s (uart_event.UART_TX_DONE ebuf elen) alloc).1.aborted_buf = 0 ∧
    (uart_cb s (uart_event.UART_TX_DONE ebuf elen) alloc).1.aborted_len = 0 ∧
    (uart_cb s (uart_event.UART_TX_DONE ebuf elen) alloc).1.len_of = s.len_of ∧
    (∀ b2 k, k ≤ s.len_of b2 → s.len_of b2 < 65536 →
      (uart_cb (uart_cb s (uart_event.UART_TX_DONE ebuf elen) alloc).1
          (uart_event.UART_TX_ABORTED (data_of b2) k) alloc).2
        = [uart_cmd.uart_tx (data_of b2 + k) (s.len_of b2 - k)] ∧
      (uart_cb (uart_cb s (uart_event.UART_TX_DONE ebuf elen) alloc).1
          (uart_event.UART_TX_ABORTED (data_of b2) k) alloc).1.aborted_buf = data_of b2 ∧
      (uart_cb (uart_cb s (uart_event.UART_TX_DONE ebuf elen) alloc).1
          (uart_event.UART_TX_ABORTED (data_of b2) k) alloc).1.aborted_len = k) ∧
    (∀ (s1 : uart_cb_state) (p k a q : Nat),
      uart_cmd.k_free q ∉ (uart_cb s1 (uart_event.UART_TX_ABORTED p k) a).2) := by
  have hdone : (uart_cb s (uart_event.UART_TX_DONE ebuf elen) alloc).2 = [uart_cmd.k_free b] ∧
      (uart_cb s (uart_event.UART_TX_DONE ebuf elen) alloc).1.aborted_buf = 0 ∧
      (uart_cb s (uart_event.UART_TX_DONE ebuf elen) alloc).1.aborted_len = 0 ∧
      (uart_cb s (uart_event.UART_TX_DONE ebuf elen) alloc).1.len_of = s.len_of := by
    rcases hfl with ⟨h1, h2, h3⟩ | h1
    · simp [uart_cb, hlen, h1, h2, h3, data_of_ne_zero, CONTAINER_OF_data_of]
    · simp [uart_cb, hlen, hbuf, h1, data_of_ne_zero, CONTAINER_OF_data_of]
  obtain ⟨h1, h2, h3, h4⟩ := hdone
  refine ⟨h1, h2, h3, h4, ?_, ?_⟩
  · intro b2 k hk h16
    have hn : (uart_cb s (uart_event.UART_TX_DONE ebuf elen) alloc).1.len_of b2 = s.len_of b2 := by
      rw [h4]
    have h := uart_cb_abort_step (uart_cb s (uart_event.UART_TX_DONE ebuf elen) alloc).1
      b2 0 k (s.len_of b2) (Or.inl ⟨h2, h3, rfl⟩) hn (by omega) (by omega)
    have hsame : (uart_cb (uart_cb s (uart_event.UART_TX_DONE ebuf elen) alloc).1
        (uart_event.UART_TX_ABORTED (data_of b2) k) alloc)
        = (uart_cb (uart_cb s (uart_event.UART_TX_DONE ebuf elen) alloc).1
        (uart_event.UART_TX_ABORTED (data_of b2 + 0) k) 0) := by
      simp [uart_cb]
    rw [hsame]
    simp only [Nat.add_zero, Nat.zero_add] at h ⊢
    exact ⟨h.1, h.2.1, h.2.2.1⟩
  · intro s1 p k a q
    simp [uart_cb]

/-- The lemma above at the 100-byte buffer at 1000: completing it directly, and
completing it after an abort at 30 bytes (the event then points 30 bytes into
the buffer), both free the buffer at 1000. -/
theorem tx_done_frees_inflight_example :
    ((100 : Nat) ≠ 0 ∧ data_of 1000 ≠ 0 ∧ cb_idle.aborted_buf = 0) ∧
    (uart_cb cb_idle (uart_event.UART_TX_DONE (data_of 1000) 100) 0).2 = [uart_cmd.k_free 1000] ∧
    (uart_cb (uart_cb cb_idle (uart_event.UART_TX_ABORTED (data_of 1000) 30) 0).1
        (uart_event.UART_TX_DONE (data_of 1000 + 30) 70) 0).2 = [uart_cmd.k_free 1000] :=
  ⟨⟨by decide, by decide, rfl⟩,
    (tx_done_frees_inflight cb_idle 1000 (data_of 1000) 100 0 (by decide) (by decide)
      (Or.inl ⟨rfl, rfl, rfl⟩)).1,
    (tx_done_frees_inflight (uart_cb cb_idle (uart_event.UART_TX_ABORTED (data_of 1000) 30) 0).1
      1000 (data_of 1000 + 30) 70 0 (by decide) (by decide) (Or.inr (by decide))).1⟩

/-- The guard at the top of the `UART_TX_DONE` branch: an event with length 0
or a null pointer makes `uart_cb` return at once, with no call issued and no
state changed, whatever the abort cursor holds. -/
theorem uart_cb_tx_done_ignored (s : uart_cb_state) (ebuf elen alloc : Nat)
    (h : elen = 0 ∨ ebuf = 0) :
    uart_cb s (uart_event.UART_TX_DONE ebuf elen) alloc = (s, []) := by
  simp [uart_cb, h]

/-- C10 fails when a buffer is aborted with all of its bytes accepted: the
resubmission for the buffer at 1000 is empty, its `UART_TX_DONE` (length 0)
returns at the guard, so the buffer at 1000 is not freed and the abort cursor
still records it; the `UART_TX_DONE` of the next buffer, at 2000 with 50
bytes, then frees the buffer at 1000, and the buffer at 2000 is never freed. -/
theorem C10_stale_cursor_frees_wrong_buffer :
    (uart_cb_run cb_two_buffers abort_then_two_completions).2
      = [[uart_cmd.uart_tx (data_of 1000 + 100) 0], [], [uart_cmd.k_free 1000]] ∧
    (uart_cb_run cb_two_buffers (abort_then_two_completions.take 2)).1.aborted_buf
      = data_of 1000 ∧
    (uart_cb_run cb_two_buffers (abort_then_two_completions.take 2)).1.aborted_len = 100 ∧
    uart_cmd.k_free 2000 ∉ (uart_cb_run cb_two_buffers abort_then_two_completions).2.flatten := by
  decide

/-! ## C11: indices into the batch array -/

theorem store_indices_loop_eq : ∀ (queued : List nus_data_t) (i : Nat),
    i + queued.length < 256 →
    store_indices_loop queued i = List.range' i (queued.length + 1) := by
  intro queued
  induction queued with
  | nil => intro i _; rfl
  | cons p rest ih =>
    intro i h
    simp only [List.length_cons] at h
    have hmod : (i + 1) % 256 = i + 1 := Nat.mod_eq_of_lt (by omega)
    rw [store_indices_loop, hmod, ih (i + 1) (by omega)]
    simp only [List.length_cons, List.range'_succ]

/-- While fewer than 255 packets are found, the stores of a collection go to
`buffer[0]`, `buffer[1]`, .., one slot per packet and one for the terminator,
so the last index used is the number of packets in the batch. -/
theorem store_indices_eq (queued : List nus_data_t) (h : queued.length < 255) :
    store_indices queued = List.range' 0 (queued.length + 2) := by
  unfold store_indices
  rw [store_indices_loop_eq queued 1 (by omega), List.range'_succ 0 (queued.length + 1)]

/-- A batch of ten or more packets (nine or more found after the first) always
ends in a store outside the ten slots of `buffer`. -/
theorem collect_overrun (first : nus_data_t) (queued : List nus_data_t)
    (h : 9 ≤ queued.length) :
    collect first queued = Except.error Fault.out_of_bounds := by
  unfold collect
  have h0 : buffer_set (List.replicate 10 none) 0 (some first)
      = Except.ok (([first] : List nus_data_t).map some ++ List.replicate 9 none) := by
    rfl
  rw [h0]
  simp only
  have hl := collect_loop_spec queued [first] 9 (by simp)
  simp only [List.length_singleton] at hl
  rw [hl]
  by_cases hq : queued.length ≤ 9
  · rw [if_pos hq]
    simp only
    unfold buffer_set
    have hk : 9 - queued.length = 0 := by omega
    have hlen : ¬ (1 + queued.length
        < (([first] ++ queued).map some ++ List.replicate (9 - queued.length) none).length) := by
      rw [hk]; simp; omega
    rw [if_neg hlen]
  · rw [if_neg hq]

set_option maxRecDepth 100000 in
/-- C11 fails when ten packets make up one batch (the first and nine found by
the collection loop): the stores go to `buffer[0]` .. `buffer[10]`; the ten
packets fill slots 0 to 9, the loop ends with `i = 10`, and the store of the
terminating `NULL` at `buffer[10]` is outside the ten-slot array. -/
theorem C11_ten_packets_overrun_batch_array :
    store_indices queue9 = [0, 1, 2, 3, 4, 5, 6, 7, 8, 9, 10] ∧
    ¬ (∀ i ∈ store_indices queue9, i ≤ 9) ∧
    (match collect_loop queue9 1 (some (pkt 0 40) :: List.replicate 9 none) with
      | Except.ok (i, b) => some (i, b.length, b.all Option.isSome)
      | Except.error _ => none) = some (10, 10, true) ∧
    collect (pkt 0 40) queue9 = Except.error Fault.out_of_bounds ∧
    observe (ble_read_iter 20 (read_state_init [1000] []) (pkt 0 40) queue9)
      = Except.error Fault.out_of_bounds :=
  ⟨by decide, by decide, by decide, rfl, rfl⟩

end NusBridge
